import Mathlib

/-!
Verification of the lookup-aggregator / consensus core of the
`api-client` (ipintel) repository against its specification.

The Go source is shallowly embedded:

* `model.Geolocation` (src/internal/model, Geolocation struct) becomes the
  Lean structure `Geolocation`; the Go `float64` coordinates are idealised
  as exact rationals (`Rat`).
* `model.ProviderResult` / `model.Report` (src/internal/model/report.go)
  become `ProviderResult` / `Report`; the wall-clock fields
  (`Duration`, `Timestamp`, `TotalDuration`) carry no data-flow relevant to
  the claims and are elided.
* `provider.Provider` (src/internal/provider/provider.go) becomes
  `Provider`: a name together with a fetch function.  The Go `Check`
  receives a `context.Context`; for one `Lookup` call the same context is
  given to every provider, so the context is absorbed into the function and
  a failure (including a cancellation-flavoured one) is the `Except.error`
  case carrying the Go error's message string.
* `Aggregator.Lookup` (src/internal/aggregator/aggregator.go) becomes
  `Lookup`; the concurrent slot-indexed writes are additionally modelled by
  `LookupSched`, which performs the per-provider slot writes in an
  arbitrary completion order.
* `Report.Consensus` and `mostVoted` (src/internal/model/report.go) become
  `Report.Consensus` / `mostVoted`.  The iteration order of a Go map is
  unspecified, so `Report.consensusWith` takes the iteration order of each
  vote map as an explicit parameter; `Report.Consensus` is the identity
  instance.
* `model.ParseIPAddress` (the zone-rejecting constructor) and
  `model.ParseAddr` (src/internal/model/ip.go, a thin wrapper over the Go
  standard library's `netip.ParseAddr`) are both embedded; `netipParseAddr`
  is a model of the standard-library parser, which is not part of the
  repository.
-/

/-- Model of the Go standard library's `netip.Addr`: the address bytes
(4 for IPv4, 16 for IPv6; `[]` is the invalid zero value) together with an
IPv6 zone identifier (empty when absent). -/
structure NetipAddr where
  bytes : List Nat
  zone : String := ""
  deriving DecidableEq, Repr

/-- Go `a.Zone()` accessor of the modelled `netip.Addr`. -/
def NetipAddr.Zone (a : NetipAddr) : String := a.zone

/-- Go `a.IsValid()`: the zero `netip.Addr` is invalid. -/
def NetipAddr.IsValid (a : NetipAddr) : Bool :=
  a.bytes.length == 4 || a.bytes.length == 16

/-- Geolocation (src/internal/model, `Geolocation` struct): the normalised
result type all providers map their responses to.  Field order and names
follow the Go struct; `float64` is idealised as `Rat`. -/
structure Geolocation where
  IP : NetipAddr := { bytes := [] }
  Country : String := ""
  CountryCode : String := ""
  Region : String := ""
  City : String := ""
  Latitude : Rat := 0
  Longitude : Rat := 0
  ISP : String := ""
  Org : String := ""
  ASN : String := ""
  deriving DecidableEq, Repr

/-- Go `g.HasLocation()`: true iff at least one coordinate is non-zero. -/
def Geolocation.HasLocation (g : Geolocation) : Bool :=
  decide (g.Latitude ≠ 0) || decide (g.Longitude ≠ 0)

/-- Go `g.HasNetworkInfo()`. -/
def Geolocation.HasNetworkInfo (g : Geolocation) : Bool :=
  decide (g.ISP ≠ "") || decide (g.Org ≠ "") || decide (g.ASN ≠ "")

/-- Go `g.IsEmpty()`: every field except `IP` is at its zero value. -/
def Geolocation.IsEmpty (g : Geolocation) : Bool :=
  decide (g.Country = "") && decide (g.CountryCode = "") &&
  decide (g.Region = "") && decide (g.City = "") &&
  decide (g.Latitude = 0) && decide (g.Longitude = 0) &&
  decide (g.ISP = "") && decide (g.Org = "") && decide (g.ASN = "")

/-- ProviderResult (src/internal/model/report.go, lines 10-20): one
provider's outcome.  `Result` is the Go `*Geolocation` (`none` = nil) and
`Error` the failure description; the `Duration` field is elided. -/
structure ProviderResult where
  Provider : String := ""
  Result : Option Geolocation := none
  Error : String := ""
  deriving DecidableEq, Repr

/-- Go `pr.Success()`: `pr.Error == "" && pr.Result != nil`. -/
def ProviderResult.Success (pr : ProviderResult) : Bool :=
  decide (pr.Error = "") && pr.Result.isSome

/-- Report (src/internal/model/report.go): the aggregated result.  The
wall-clock fields are elided. -/
structure Report where
  IP : NetipAddr
  Results : List ProviderResult
  deriving DecidableEq, Repr

/-- Go `r.SuccessCount()`: the loop counting successful results. -/
def Report.SuccessCount (r : Report) : Nat :=
  r.Results.countP (fun pr => pr.Success)

/-- Go `r.ErrorCount()`: `len(r.Results) - r.SuccessCount()`. -/
def Report.ErrorCount (r : Report) : Nat :=
  r.Results.length - r.SuccessCount

/-- Go `r.SuccessfulResults()`: the successful results, in order. -/
def Report.SuccessfulResults (r : Report) : List ProviderResult :=
  r.Results.filter (fun pr => pr.Success)

/-- Go map increment `votes[k]++` on an association-list model of
`map[string]int`: bump the entry for `k`, or append `(k, 1)`. -/
def incrVote (votes : List (String × Nat)) (k : String) : List (String × Nat) :=
  match votes with
  | [] => [(k, 1)]
  | (k', c) :: rest =>
      if k' = k then (k', c + 1) :: rest else (k', c) :: incrVote rest k

/-- Vote-map construction of `Report.Consensus` for one string field `f`:
each successful geolocation with a non-empty value for `f` casts one vote
(`if g.F != "" { fVotes[g.F]++ }` in the single Go loop, which updates each
of the seven maps independently). -/
def buildVotes (f : Geolocation → String) (gs : List Geolocation) :
    List (String × Nat) :=
  gs.foldl (fun acc g => if f g ≠ "" then incrVote acc (f g) else acc) []

/-- Lexicographic comparison of character lists by Unicode scalar value.
Go compares strings byte-wise over their UTF-8 encoding, which orders
strings exactly by code points, so this models Go's `<` on `string`. -/
def charListLt : List Char → List Char → Bool
  | [], [] => false
  | [], _ :: _ => true
  | _ :: _, [] => false
  | a :: as, b :: bs =>
      if a.toNat < b.toNat then true
      else if b.toNat < a.toNat then false
      else charListLt as bs

/-- Go's `<` on `string` (byte-wise lexicographic). -/
def strLt (a b : String) : Bool := charListLt a.data b.data

/-- Condition of the Go `mostVoted` loop (src/internal/model/report.go,
line 171): `count > bestCount || (count == bestCount && k < best)`, for a
candidate entry `kv = (k, count)` against the running best `acc`. -/
def voteBeats (kv acc : String × Nat) : Prop :=
  kv.2 > acc.2 ∨ (kv.2 = acc.2 ∧ strLt kv.1 acc.1 = true)

instance (kv acc : String × Nat) : Decidable (voteBeats kv acc) :=
  inferInstanceAs (Decidable (_ ∨ _ ∧ _ = true))

/-- Loop body of Go `mostVoted` (src/internal/model/report.go, lines
164-178): replace the running best `(best, bestCount)` by `(k, count)` when
`count > bestCount || (count == bestCount && k < best)`. -/
def voteStep (acc kv : String × Nat) : String × Nat :=
  if voteBeats kv acc then kv else acc

/-- Ordering certificate used in the proofs: `voteLe kv best` states that
the entry `best` is at least as good as `kv` under the `mostVoted` rule
(strictly more votes, or equally many votes and a key no larger). -/
def voteLe (kv best : String × Nat) : Prop :=
  kv.2 < best.2 ∨ (kv.2 = best.2 ∧ strLt kv.1 best.1 = false)

/-- Go `mostVoted`: fold the loop body over the map entries, starting from
the zero values `best = ""`, `bestCount = 0`. -/
def mostVoted (votes : List (String × Nat)) : String :=
  (votes.foldl voteStep ("", 0)).1

/-- Enumeration of the seven voted string fields of `Geolocation`. -/
inductive GeoField
  | country | countryCode | city | region | isp | org | asn
  deriving DecidableEq, Repr

/-- Accessor of the voted string field. -/
def GeoField.get : GeoField → Geolocation → String
  | .country => Geolocation.Country
  | .countryCode => Geolocation.CountryCode
  | .city => Geolocation.City
  | .region => Geolocation.Region
  | .isp => Geolocation.ISP
  | .org => Geolocation.Org
  | .asn => Geolocation.ASN

/-- Go `r.Consensus()` (src/internal/model/report.go, lines 91-162), with
the unspecified iteration order of each Go vote map made explicit: `π φ` is
the order in which field `φ`'s map entries are handed to `mostVoted`.
Structure mirrors the source: early return on zero successful results; one
pass over the successful results skipping `pr.Result == nil`, building the
seven vote maps and the coordinate sums (`latSum`, `lonSum`, `coordCount`
accumulate over exactly the results with `g.HasLocation()`); then the
consensus record, with coordinates averaged only when `coordCount > 0`. -/
def Report.consensusWith (r : Report)
    (π : GeoField → List (String × Nat) → List (String × Nat)) : Geolocation :=
  let successful := r.SuccessfulResults
  if successful.length = 0 then
    { IP := r.IP }
  else
    let gs := successful.filterMap (fun pr => pr.Result)
    let cs := gs.filter (fun g => g.HasLocation)
    let coordCount := cs.length
    let latSum : Rat := (cs.map (fun g => g.Latitude)).sum
    let lonSum : Rat := (cs.map (fun g => g.Longitude)).sum
    { IP := r.IP
      Country := mostVoted (π .country (buildVotes (fun g => g.Country) gs))
      CountryCode := mostVoted (π .countryCode (buildVotes (fun g => g.CountryCode) gs))
      Region := mostVoted (π .region (buildVotes (fun g => g.Region) gs))
      City := mostVoted (π .city (buildVotes (fun g => g.City) gs))
      Latitude := if 0 < coordCount then latSum / (coordCount : Rat) else 0
      Longitude := if 0 < coordCount then lonSum / (coordCount : Rat) else 0
      ISP := mostVoted (π .isp (buildVotes (fun g => g.ISP) gs))
      Org := mostVoted (π .org (buildVotes (fun g => g.Org) gs))
      ASN := mostVoted (π .asn (buildVotes (fun g => g.ASN) gs)) }

/-- Go `r.Consensus()`: the deterministic association-list order is the
identity instance of `consensusWith`. -/
def Report.Consensus (r : Report) : Geolocation :=
  r.consensusWith (fun _ => id)

/-- Provider (src/internal/provider/provider.go): `Name() string` plus
`Check(ctx, ip) (Geolocation, error)`.  A failure is `Except.error` with
the Go error's message string (`err.Error()`). -/
structure Provider where
  name : String
  check : NetipAddr → Except String Geolocation

/-- Body of the per-provider goroutine of `Aggregator.Lookup`
(src/internal/aggregator/aggregator.go, lines 41-60): build the
`ProviderResult` for one provider from its `Check` outcome. -/
def checkOutcome (ip : NetipAddr) (p : Provider) : ProviderResult :=
  match p.check ip with
  | Except.error e => { Provider := p.name, Result := none, Error := e }
  | Except.ok g => { Provider := p.name, Result := some g, Error := "" }

/-- Go `Aggregator.Lookup` (src/internal/aggregator/aggregator.go, lines
28-67): one outcome per provider, written into the slot of its index. -/
def Lookup (providers : List Provider) (ip : NetipAddr) : Report :=
  { IP := ip, Results := providers.map (checkOutcome ip) }

/-- Scheduled semantics of `Aggregator.Lookup`: the pre-sized result slice
(`make([]ProviderResult, len(providers))`, all Go zero values) receives the
slot writes `report.Results[idx] = pr` in an arbitrary completion order
`order`; each goroutine writes only its own index. -/
def LookupSched (providers : List Provider) (ip : NetipAddr)
    (order : List Nat) : Report :=
  { IP := ip
    Results :=
      order.foldl
        (fun acc i =>
          match providers[i]? with
          | some p => acc.set i (checkOutcome ip p)
          | none => acc)
        (List.replicate providers.length {}) }

/-- Total number of votes an association-list vote map records for key
`k` (with a single entry per key this is that entry's count). -/
def assocCount : List (String × Nat) → String → Nat
  | [], _ => 0
  | (k', c) :: rest, k => (if k' = k then c else 0) + assocCount rest k

/-- Specification-side vote count: the number of successful geolocations
whose field value `f` equals `v`.  For `v ≠ ""` these are exactly the
outcomes that cast a vote for `v`. -/
def specVoteCount (f : Geolocation → String) (gs : List Geolocation)
    (v : String) : Nat :=
  gs.countP (fun g => decide (f g = v))

/-- Decimal digit value of a character, if any. -/
def digitVal (c : Char) : Option Nat :=
  if 48 ≤ c.toNat ∧ c.toNat ≤ 57 then some (c.toNat - 48) else none

/-- Hexadecimal digit value of a character, if any. -/
def hexVal (c : Char) : Option Nat :=
  if 48 ≤ c.toNat ∧ c.toNat ≤ 57 then some (c.toNat - 48)
  else if 97 ≤ c.toNat ∧ c.toNat ≤ 102 then some (c.toNat - 87)
  else if 65 ≤ c.toNat ∧ c.toNat ≤ 70 then some (c.toNat - 55)
  else none

/-- Split a character list at every occurrence of `sep` (like Go
`strings.Split`). -/
def splitChars (sep : Char) : List Char → List (List Char)
  | [] => [[]]
  | c :: rest =>
      let r := splitChars sep rest
      if c = sep then [] :: r
      else
        match r with
        | [] => [[c]]
        | g :: gs => (c :: g) :: gs

/-- Split a character list at the first occurrence of `sep`, if any. -/
def breakAtChar (sep : Char) : List Char → List Char × Option (List Char)
  | [] => ([], none)
  | c :: rest =>
      if c = sep then ([], some rest)
      else
        let p := breakAtChar sep rest
        (c :: p.1, p.2)

/-- Split a character list at the first occurrence of a double colon
`::`, if any. -/
def splitDoubleColon : List Char → Option (List Char × List Char)
  | [] => none
  | ':' :: ':' :: rest => some ([], rest)
  | c :: rest =>
      match splitDoubleColon rest with
      | some p => some (c :: p.1, p.2)
      | none => none

/-- Decimal IPv4 field (0-255, no leading zeros), per the Go standard
library's `netip` IPv4 field grammar. -/
def parseV4Field (cs : List Char) : Option Nat :=
  if cs.length = 0 ∨ 3 < cs.length then none
  else if 1 < cs.length ∧ cs.head? = some '0' then none
  else
    match cs.mapM digitVal with
    | none => none
    | some ds =>
        let n := ds.foldl (fun acc d => acc * 10 + d) 0
        if n ≤ 255 then some n else none

/-- Dotted-quad IPv4 address, as four bytes. -/
def parseIPv4Chars (cs : List Char) : Option (List Nat) :=
  match (splitChars '.' cs).mapM parseV4Field with
  | some [a, b, c, d] => some [a, b, c, d]
  | _ => none

/-- Hexadecimal IPv6 group of 1-4 digits (value below 65536). -/
def parseHexGroup (g : List Char) : Option Nat :=
  if g.length = 0 ∨ 4 < g.length then none
  else (g.mapM hexVal).map (fun ds => ds.foldl (fun acc d => acc * 16 + d) 0)

/-- Bytes of a colon-separated group list; an embedded dotted IPv4 part is
allowed only as the final group (and only when `allowV4` holds). -/
def groupBytes (allowV4 : Bool) : List (List Char) → Option (List Nat)
  | [] => some []
  | [g] =>
      if g.contains '.' then
        if allowV4 then parseIPv4Chars g else none
      else (parseHexGroup g).map (fun v => [v / 256, v % 256])
  | g :: gs =>
      match parseHexGroup g, groupBytes allowV4 gs with
      | some v, some bs => some ([v / 256, v % 256] ++ bs)
      | _, _ => none

/-- IPv6 address (without zone), as sixteen bytes: either a unique `::`
abbreviating at least one zero group, or exactly eight groups. -/
def parseIPv6 (cs : List Char) : Option (List Nat) :=
  match splitDoubleColon cs with
  | some p =>
      let lgroups := if p.1.isEmpty then [] else splitChars ':' p.1
      let rgroups := if p.2.isEmpty then [] else splitChars ':' p.2
      if lgroups.any (fun g => g.isEmpty) ∨ rgroups.any (fun g => g.isEmpty) then
        none
      else
        match groupBytes false lgroups, groupBytes true rgroups with
        | some lb, some rb =>
            if lb.length + rb.length ≤ 14 then
              some (lb ++ List.replicate (16 - lb.length - rb.length) 0 ++ rb)
            else none
        | _, _ => none
  | none =>
      let groups := splitChars ':' cs
      if groups.any (fun g => g.isEmpty) then none
      else
        match groupBytes true groups with
        | some b => if b.length = 16 then some b else none
        | none => none

/-- Modelled from the Go standard library (not part of this repository):
`netip.ParseAddr`.  Accepts dotted-quad IPv4 and RFC 4291 IPv6 literals;
an IPv6 literal may carry a non-empty zone suffix after `%`, which is
stored in the returned address; every other input is an error. -/
def netipParseAddr (s : String) : Except String NetipAddr :=
  let cs := s.data
  if cs.contains ':' then
    match breakAtChar '%' cs with
    | (addr, some zoneChars) =>
        if zoneChars.isEmpty then Except.error "unable to parse IP"
        else
          match parseIPv6 addr with
          | some bs => Except.ok { bytes := bs, zone := String.mk zoneChars }
          | none => Except.error "unable to parse IP"
    | (addr, none) =>
        match parseIPv6 addr with
        | some bs => Except.ok { bytes := bs, zone := "" }
        | none => Except.error "unable to parse IP"
  else if cs.contains '.' then
    match parseIPv4Chars cs with
    | some bs => Except.ok { bytes := bs, zone := "" }
    | none => Except.error "unable to parse IP"
  else Except.error "unable to parse IP"

/-- Validated address type of `model.ParseIPAddress` (the `IPAddress`
struct wrapping a `netip.Addr`; in the Lean embedding the wrapped model
type is `NetipAddr`, so the struct gets the distinguishing name
`IPAddressStruct`). -/
structure IPAddressStruct where
  addr : NetipAddr
  deriving DecidableEq, Repr

/-- Go `model.ParseIPAddress` (the zone-rejecting constructor): reject the
empty string, parse via `netip.ParseAddr`, and reject any address carrying
a zone identifier. -/
def ParseIPAddress (s : String) : Except String IPAddressStruct :=
  if s = "" then Except.error "empty IP address"
  else
    match netipParseAddr s with
    | Except.error _ => Except.error "invalid IP address"
    | Except.ok a =>
        if a.Zone ≠ "" then Except.error "IP address contains zone identifier"
        else Except.ok { addr := a }

/-- Go `model.ParseAddr` (src/internal/model/ip.go, lines 7-9): a direct
wrapper of `netip.ParseAddr`, with `IPAddress = netip.Addr` as a type
alias; no zone check is performed. -/
def ParseAddr (ipAddr : String) : Except String NetipAddr :=
  netipParseAddr ipAddr

lemma char_eq_of_toNat_eq {a b : Char} (h : a.toNat = b.toNat) : a = b := by
  have h2 := congrArg Char.ofNat h
  simpa [Char.ofNat_toNat] using h2

lemma charListLt_lex : ∀ a b : List Char,
    charListLt a b = true ↔ List.Lex (· < ·) a b
  | [], [] => by
      simp only [charListLt, Bool.false_eq_true, false_iff]
      exact List.Lex.not_nil_right _ _
  | [], _b :: _bs => by
      simp only [charListLt, true_iff]
      exact List.Lex.nil
  | _a :: _as, [] => by
      simp only [charListLt, Bool.false_eq_true, false_iff]
      exact List.Lex.not_nil_right _ _
  | a :: as, b :: bs => by
      simp only [charListLt]
      split_ifs with h1 h2
      · simp only [true_iff]
        exact List.Lex.rel (show a < b from h1)
      · simp only [Bool.false_eq_true, false_iff]
        intro hlex
        cases hlex with
        | rel h => exact absurd (show a.toNat < b.toNat from h) (by omega)
        | cons h => exact absurd h2 (Nat.lt_irrefl _)
      · have hab : a = b := char_eq_of_toNat_eq (by omega)
        subst hab
        rw [charListLt_lex as bs]
        constructor
        · exact List.Lex.cons
        · intro hlex
          cases hlex with
          | rel h => exact absurd (show a.toNat < a.toNat from h) (Nat.lt_irrefl _)
          | cons h => exact h

lemma string_eq_of_data_eq {a b : String} (h : a.data = b.data) : a = b := by
  cases a
  cases b
  exact congrArg String.mk h

lemma not_lex_of_charListLt_false {a b : List Char}
    (h : charListLt a b = false) : ¬ List.Lex (· < ·) a b := by
  intro hl
  rw [← charListLt_lex, h] at hl
  exact absurd hl (by decide)

lemma strLt_irrefl (a : String) : strLt a a = false := by
  cases h : charListLt a.data a.data with
  | false => exact h
  | true =>
      exact absurd ((charListLt_lex _ _).1 h)
        (IsIrrefl.irrefl (r := List.Lex (· < ·)) _)

lemma strLt_asymm {a b : String} (h : strLt a b = true) : strLt b a = false := by
  cases h2 : charListLt b.data a.data with
  | false => exact h2
  | true =>
      exact absurd ((charListLt_lex _ _).1 h)
        (IsAsymm.asymm _ _ ((charListLt_lex _ _).1 h2))

lemma strLt_trans {a b c : String} (h1 : strLt a b = true)
    (h2 : strLt b c = true) : strLt a c = true := by
  rw [strLt, charListLt_lex] at h1 h2 ⊢
  exact IsTrans.trans _ _ _ h1 h2

lemma strLt_conn {a b : String} (h1 : strLt a b = false)
    (h2 : strLt b a = false) : a = b := by
  have inst : IsTrichotomous (List Char) (List.Lex (· < ·)) := inferInstance
  rcases @trichotomous_of (List Char) (List.Lex (· < ·)) inst a.data b.data with
    h | h | h
  · exact absurd h (not_lex_of_charListLt_false h1)
  · exact string_eq_of_data_eq h
  · exact absurd h (not_lex_of_charListLt_false h2)

lemma strLt_false_trans {a b c : String} (h1 : strLt a b = false)
    (h2 : strLt b c = false) : strLt a c = false := by
  cases h : strLt a c with
  | false => rfl
  | true =>
      have inst : IsTrichotomous (List Char) (List.Lex (· < ·)) := inferInstance
      rcases @trichotomous_of (List Char) (List.Lex (· < ·)) inst a.data b.data with
        hl | hl | hl
      · exact absurd hl (not_lex_of_charListLt_false h1)
      · have hab : a = b := string_eq_of_data_eq hl
        subst hab
        rw [h] at h2
        exact absurd h2 (by decide)
      · have hba : strLt b a = true := (charListLt_lex _ _).2 hl
        have := strLt_trans hba h
        rw [this] at h2
        exact absurd h2 (by decide)

lemma voteBeats_asymm {x y : String × Nat} (h : voteBeats x y) :
    ¬ voteBeats y x := by
  rintro (h2 | ⟨hc2, hs2⟩) <;> rcases h with h | ⟨hc, hs⟩
  · omega
  · omega
  · omega
  · rw [strLt_asymm hs] at hs2
    exact absurd hs2 (by decide)

lemma voteBeats_trans {x y z : String × Nat} (h1 : voteBeats x y)
    (h2 : voteBeats y z) : voteBeats x z := by
  rcases x with ⟨kx, cx⟩
  rcases y with ⟨ky, cy⟩
  rcases z with ⟨kz, cz⟩
  rcases h1 with h1 | ⟨hc1, hs1⟩ <;> rcases h2 with h2 | ⟨hc2, hs2⟩
  · exact Or.inl (by simp_all; omega)
  · exact Or.inl (by simp_all)
  · exact Or.inl (by simp_all)
  · exact Or.inr ⟨by simp_all, strLt_trans hs1 hs2⟩

lemma voteBeats_conn {x y : String × Nat} (h1 : ¬ voteBeats x y)
    (h2 : ¬ voteBeats y x) : x = y := by
  rcases x with ⟨kx, cx⟩
  rcases y with ⟨ky, cy⟩
  unfold voteBeats at h1 h2
  push_neg at h1 h2
  simp only at h1 h2
  have hc : cx = cy := by omega
  have hs1 : strLt kx ky = false := by
    have := h1.2 hc
    simpa using this
  have hs2 : strLt ky kx = false := by
    have := h2.2 hc.symm
    simpa using this
  have hk : kx = ky := strLt_conn hs1 hs2
  rw [hk, hc]

lemma voteLe_refl (x : String × Nat) : voteLe x x :=
  Or.inr ⟨rfl, strLt_irrefl _⟩

lemma voteLe_trans {x y z : String × Nat} (h1 : voteLe x y)
    (h2 : voteLe y z) : voteLe x z := by
  rcases h1 with h1 | ⟨hc1, hs1⟩ <;> rcases h2 with h2 | ⟨hc2, hs2⟩
  · exact Or.inl (by omega)
  · exact Or.inl (by omega)
  · exact Or.inl (by omega)
  · exact Or.inr ⟨by omega, strLt_false_trans hs1 hs2⟩

lemma voteLe_of_beats {x a : String × Nat} (h : voteBeats x a) : voteLe a x := by
  rcases h with h | ⟨hc, hs⟩
  · exact Or.inl h
  · exact Or.inr ⟨hc.symm, strLt_asymm hs⟩

lemma voteLe_of_not_beats {x a : String × Nat} (h : ¬ voteBeats x a) :
    voteLe x a := by
  unfold voteBeats at h
  push_neg at h
  rcases Nat.lt_or_ge x.2 a.2 with hlt | hge
  · exact Or.inl hlt
  · have hc : x.2 = a.2 := by omega
    have hs : strLt x.1 a.1 = false := by
      have h3 := h.2 hc
      simpa using h3
    exact Or.inr ⟨hc, hs⟩

lemma voteStep_cases (a x : String × Nat) : voteStep a x = a ∨ voteStep a x = x := by
  unfold voteStep
  split_ifs
  · exact Or.inr rfl
  · exact Or.inl rfl

lemma voteLe_voteStep_left (a x : String × Nat) : voteLe a (voteStep a x) := by
  unfold voteStep
  split_ifs with h
  · exact voteLe_of_beats h
  · exact voteLe_refl a

lemma voteLe_voteStep_right (a x : String × Nat) : voteLe x (voteStep a x) := by
  unfold voteStep
  split_ifs with h
  · exact voteLe_refl x
  · exact voteLe_of_not_beats h

lemma voteStep_rcomm (a x y : String × Nat) :
    voteStep (voteStep a x) y = voteStep (voteStep a y) x := by
  unfold voteStep
  by_cases hxa : voteBeats x a <;> by_cases hya : voteBeats y a
  · rw [if_pos hxa, if_pos hya]
    by_cases hyx : voteBeats y x
    · rw [if_pos hyx, if_neg (voteBeats_asymm hyx)]
    · by_cases hxy : voteBeats x y
      · rw [if_neg hyx, if_pos hxy]
      · rw [if_neg hyx, if_neg hxy]
        exact voteBeats_conn hxy hyx
  · rw [if_pos hxa, if_neg hya, if_pos hxa]
    by_cases hyx : voteBeats y x
    · exact absurd (voteBeats_trans hyx hxa) hya
    · rw [if_neg hyx]
  · rw [if_neg hxa, if_pos hya]
    by_cases hxy : voteBeats x y
    · exact absurd (voteBeats_trans hxy hya) hxa
    · rw [if_neg hxy]
  · rw [if_neg hxa, if_neg hya, if_neg hxa]

lemma foldl_voteStep_le (l : List (String × Nat)) :
    ∀ (a kv : String × Nat), (kv = a ∨ kv ∈ l) →
      voteLe kv (l.foldl voteStep a) := by
  induction l with
  | nil =>
      intro a kv h
      rcases h with rfl | h
      · exact voteLe_refl _
      · simp at h
  | cons x rest ih =>
      intro a kv h
      simp only [List.foldl_cons]
      rcases h with rfl | h
      · exact voteLe_trans (voteLe_voteStep_left kv x)
          (ih (voteStep kv x) _ (Or.inl rfl))
      · rcases List.mem_cons.mp h with rfl | hmem
        · exact voteLe_trans (voteLe_voteStep_right a kv)
            (ih _ _ (Or.inl rfl))
        · exact ih (voteStep a x) kv (Or.inr hmem)

lemma foldl_voteStep_mem (l : List (String × Nat)) :
    ∀ a, l.foldl voteStep a = a ∨ l.foldl voteStep a ∈ l := by
  induction l with
  | nil => intro a; exact Or.inl rfl
  | cons x rest ih =>
      intro a
      simp only [List.foldl_cons]
      rcases ih (voteStep a x) with h | h
      · rw [h]
        rcases voteStep_cases a x with h2 | h2
        · exact Or.inl h2
        · exact Or.inr (by rw [h2]; exact List.mem_cons_self x rest)
      · exact Or.inr (List.mem_cons_of_mem x h)

lemma foldl_voteStep_perm {l1 l2 : List (String × Nat)} (p : l1.Perm l2)
    (a : String × Nat) : l1.foldl voteStep a = l2.foldl voteStep a :=
  p.foldl_eq' (fun x _ y _ z => voteStep_rcomm z x y) a

lemma mostVoted_perm {l1 l2 : List (String × Nat)} (p : l1.Perm l2) :
    mostVoted l1 = mostVoted l2 := by
  unfold mostVoted
  rw [foldl_voteStep_perm p]

lemma assocCount_incrVote_self (k : String) :
    ∀ l : List (String × Nat),
      assocCount (incrVote l k) k = assocCount l k + 1 := by
  intro l
  induction l with
  | nil => simp [incrVote, assocCount]
  | cons kv rest ih =>
      rcases kv with ⟨k', c⟩
      by_cases h : k' = k
      · subst h
        simp [incrVote, assocCount]
        omega
      · simp [incrVote, h, assocCount, ih]

lemma assocCount_incrVote_other {k k' : String} (h : k' ≠ k) :
    ∀ l : List (String × Nat),
      assocCount (incrVote l k) k' = assocCount l k' := by
  intro l
  induction l with
  | nil => simp [incrVote, assocCount, h, Ne.symm h]
  | cons kv rest ih =>
      rcases kv with ⟨k0, c⟩
      by_cases h0 : k0 = k
      · subst h0
        have hne : k0 ≠ k' := fun he => h he.symm
        simp only [incrVote, if_pos rfl, assocCount, if_neg hne]
      · simp only [incrVote, if_neg h0, assocCount, ih]

lemma assocCount_eq_zero_of_not_mem {k : String} :
    ∀ {l : List (String × Nat)}, k ∉ l.map Prod.fst → assocCount l k = 0 := by
  intro l
  induction l with
  | nil => intro _; rfl
  | cons kv rest ih =>
      intro h
      rcases kv with ⟨k0, c⟩
      simp only [List.map_cons, List.mem_cons] at h
      push_neg at h
      have hne : k0 ≠ k := fun he => h.1 he.symm
      simp only [assocCount, if_neg hne, ih h.2]

lemma assocCount_eq_of_mem :
    ∀ {l : List (String × Nat)}, (l.map Prod.fst).Nodup →
      ∀ {kv : String × Nat}, kv ∈ l → assocCount l kv.1 = kv.2 := by
  intro l
  induction l with
  | nil => intro _ kv h; simp at h
  | cons x rest ih =>
      intro hnd kv h
      obtain ⟨k0, c0⟩ := x
      simp only [List.map_cons, List.nodup_cons] at hnd
      rcases List.mem_cons.mp h with rfl | hmem
      · simp [assocCount, assocCount_eq_zero_of_not_mem hnd.1]
      · have hne : k0 ≠ kv.1 := by
          intro he
          exact hnd.1 (he ▸ List.mem_map_of_mem Prod.fst hmem)
        simp only [assocCount, if_neg hne, ih hnd.2 hmem]
        omega

lemma exists_mem_of_assocCount_pos {k : String} :
    ∀ {l : List (String × Nat)}, 1 ≤ assocCount l k → ∃ c, (k, c) ∈ l := by
  intro l
  induction l with
  | nil => intro h; simp [assocCount] at h
  | cons x rest ih =>
      intro h
      rcases x with ⟨k0, c0⟩
      by_cases h0 : k0 = k
      · subst h0
        exact ⟨c0, List.mem_cons_self _ _⟩
      · simp only [assocCount, if_neg h0, Nat.zero_add] at h
        rcases ih h with ⟨c, hc⟩
        exact ⟨c, List.mem_cons_of_mem _ hc⟩

lemma incrVote_pres_pos (k : String) :
    ∀ l : List (String × Nat), (∀ kv ∈ l, 1 ≤ kv.2) →
      ∀ kv ∈ incrVote l k, 1 ≤ kv.2 := by
  intro l
  induction l with
  | nil =>
      intro _ kv h
      simp only [incrVote, List.mem_singleton] at h
      subst h
      exact Nat.le_refl 1
  | cons x rest ih =>
      intro hl kv h
      rcases x with ⟨k0, c0⟩
      by_cases h0 : k0 = k
      · subst h0
        have hIncr : incrVote ((k0, c0) :: rest) k0 = (k0, c0 + 1) :: rest := by
          simp [incrVote]
        rw [hIncr] at h
        rcases List.mem_cons.mp h with rfl | hmem
        · exact Nat.succ_le_succ (Nat.zero_le c0)
        · exact hl kv (List.mem_cons_of_mem _ hmem)
      · simp only [incrVote, if_neg h0] at h
        rcases List.mem_cons.mp h with rfl | hmem
        · exact hl _ (List.mem_cons_self _ _)
        · exact ih (fun v hv => hl v (List.mem_cons_of_mem _ hv)) kv hmem

lemma incrVote_pres_key {k : String} (hk : k ≠ "") :
    ∀ l : List (String × Nat), (∀ kv ∈ l, kv.1 ≠ "") →
      ∀ kv ∈ incrVote l k, kv.1 ≠ "" := by
  intro l
  induction l with
  | nil =>
      intro _ kv h
      simp only [incrVote, List.mem_singleton] at h
      subst h
      exact hk
  | cons x rest ih =>
      intro hl kv h
      rcases x with ⟨k0, c0⟩
      by_cases h0 : k0 = k
      · subst h0
        have hIncr : incrVote ((k0, c0) :: rest) k0 = (k0, c0 + 1) :: rest := by
          simp [incrVote]
        rw [hIncr] at h
        rcases List.mem_cons.mp h with rfl | hmem
        · exact hk
        · exact hl kv (List.mem_cons_of_mem _ hmem)
      · simp only [incrVote, if_neg h0] at h
        rcases List.mem_cons.mp h with rfl | hmem
        · exact hl _ (List.mem_cons_self _ _)
        · exact ih (fun v hv => hl v (List.mem_cons_of_mem _ hv)) kv hmem

lemma mem_keys_incrVote {x k : String} :
    ∀ {l : List (String × Nat)}, x ∈ (incrVote l k).map Prod.fst →
      x ∈ l.map Prod.fst ∨ x = k := by
  intro l
  induction l with
  | nil =>
      intro h
      simp only [incrVote, List.map_cons, List.map_nil,
        List.mem_singleton] at h
      exact Or.inr h
  | cons kv rest ih =>
      intro h
      rcases kv with ⟨k0, c0⟩
      by_cases h0 : k0 = k
      · subst h0
        have hIncr : incrVote ((k0, c0) :: rest) k0 = (k0, c0 + 1) :: rest := by
          simp [incrVote]
        rw [hIncr] at h
        simp only [List.map_cons, List.mem_cons] at h
        rcases h with h | h
        · exact Or.inl (by simp [h])
        · exact Or.inl (by simp [h])
      · simp only [incrVote, if_neg h0, List.map_cons, List.mem_cons] at h
        rcases h with h | h
        · exact Or.inl (by simp [h])
        · rcases ih h with h2 | h2
          · exact Or.inl (by simp [h2])
          · exact Or.inr h2

lemma incrVote_pres_nodup (k : String) :
    ∀ l : List (String × Nat), (l.map Prod.fst).Nodup →
      ((incrVote l k).map Prod.fst).Nodup := by
  intro l
  induction l with
  | nil => intro _; simp [incrVote]
  | cons kv rest ih =>
      intro hnd
      rcases kv with ⟨k0, c0⟩
      simp only [List.map_cons, List.nodup_cons] at hnd
      by_cases h0 : k0 = k
      · subst h0
        have hIncr : incrVote ((k0, c0) :: rest) k0 = (k0, c0 + 1) :: rest := by
          simp [incrVote]
        rw [hIncr]
        simp only [List.map_cons, List.nodup_cons]
        exact hnd
      · simp only [incrVote, if_neg h0, List.map_cons, List.nodup_cons]
        refine ⟨fun hmem => ?_, ih hnd.2⟩
        rcases mem_keys_incrVote hmem with h2 | h2
        · exact hnd.1 h2
        · exact h0 h2

lemma buildVotes_aux_inv (f : Geolocation → String) :
    ∀ (gs : List Geolocation) (acc : List (String × Nat)),
      (∀ kv ∈ acc, 1 ≤ kv.2 ∧ kv.1 ≠ "") → (acc.map Prod.fst).Nodup →
      (∀ kv ∈ gs.foldl
          (fun a g => if f g ≠ "" then incrVote a (f g) else a) acc,
          1 ≤ kv.2 ∧ kv.1 ≠ "") ∧
      ((gs.foldl (fun a g => if f g ≠ "" then incrVote a (f g) else a)
          acc).map Prod.fst).Nodup := by
  intro gs
  induction gs with
  | nil => intro acc h1 h2; exact ⟨h1, h2⟩
  | cons g rest ih =>
      intro acc h1 h2
      simp only [List.foldl_cons]
      by_cases hg : f g = ""
      · rw [if_neg (not_not_intro hg)]
        exact ih acc h1 h2
      · rw [if_pos hg]
        refine ih _ ?_ (incrVote_pres_nodup (f g) acc h2)
        intro kv hkv
        exact ⟨incrVote_pres_pos (f g) acc (fun v hv => (h1 v hv).1) kv hkv,
          incrVote_pres_key hg acc (fun v hv => (h1 v hv).2) kv hkv⟩

lemma buildVotes_inv (f : Geolocation → String) (gs : List Geolocation) :
    (∀ kv ∈ buildVotes f gs, 1 ≤ kv.2 ∧ kv.1 ≠ "") ∧
    ((buildVotes f gs).map Prod.fst).Nodup := by
  have h := buildVotes_aux_inv f gs [] (by simp) (by simp)
  simpa [buildVotes] using h

lemma buildVotes_aux_count (f : Geolocation → String) {k : String}
    (hk : k ≠ "") :
    ∀ (gs : List Geolocation) (acc : List (String × Nat)),
      assocCount
        (gs.foldl (fun a g => if f g ≠ "" then incrVote a (f g) else a) acc) k
        = assocCount acc k + specVoteCount f gs k := by
  intro gs
  induction gs with
  | nil => intro acc; simp [specVoteCount]
  | cons g rest ih =>
      intro acc
      simp only [List.foldl_cons]
      by_cases hgk : f g = k
      · have hg : f g ≠ "" := by rw [hgk]; exact hk
        rw [if_pos hg, ih, hgk, assocCount_incrVote_self]
        simp [specVoteCount, List.countP_cons, hgk]
        omega
      · by_cases hg : f g = ""
        · rw [if_neg (not_not_intro hg), ih]
          simp [specVoteCount, List.countP_cons, hgk]
        · rw [if_pos hg, ih,
            assocCount_incrVote_other (fun he => hgk he.symm) acc]
          simp [specVoteCount, List.countP_cons, hgk]

lemma buildVotes_count (f : Geolocation → String) {k : String} (hk : k ≠ "")
    (gs : List Geolocation) :
    assocCount (buildVotes f gs) k = specVoteCount f gs k := by
  have h := buildVotes_aux_count f hk gs []
  simpa [buildVotes, assocCount] using h

lemma buildVotes_eq_nil_iff (f : Geolocation → String) (gs : List Geolocation) :
    buildVotes f gs = [] ↔ ∀ v, v ≠ "" → specVoteCount f gs v = 0 := by
  constructor
  · intro h v hv
    have h2 := buildVotes_count f hv gs
    rw [h] at h2
    simpa [assocCount] using h2.symm
  · intro h
    rcases hv : buildVotes f gs with _ | ⟨e, rest⟩
    · rfl
    · exfalso
      obtain ⟨hpos, hnd⟩ := buildVotes_inv f gs
      have he : e ∈ buildVotes f gs := by
        rw [hv]; exact List.mem_cons_self _ _
      have h1 := (hpos e he).1
      have h2 := (hpos e he).2
      have h3 : assocCount (buildVotes f gs) e.1 = e.2 :=
        assocCount_eq_of_mem hnd he
      have h4 : specVoteCount f gs e.1 = e.2 := by
        rw [← buildVotes_count f h2 gs, h3]
      have h5 := h e.1 h2
      omega

lemma mostVoted_max (f : Geolocation → String) (gs : List Geolocation)
    (hne : buildVotes f gs ≠ []) :
    mostVoted (buildVotes f gs) ≠ "" ∧
    1 ≤ specVoteCount f gs (mostVoted (buildVotes f gs)) ∧
    ∀ v, v ≠ "" →
      specVoteCount f gs v ≤ specVoteCount f gs (mostVoted (buildVotes f gs)) ∧
      (specVoteCount f gs v = specVoteCount f gs (mostVoted (buildVotes f gs)) →
        strLt v (mostVoted (buildVotes f gs)) = false) := by
  obtain ⟨hpos, hnd⟩ := buildVotes_inv f gs
  obtain ⟨e, rest, hv⟩ := List.exists_cons_of_ne_nil hne
  have heMem : e ∈ buildVotes f gs := by
    rw [hv]; exact List.mem_cons_self _ _
  have hLeE := foldl_voteStep_le (buildVotes f gs) ("", 0) e (Or.inr heMem)
  have hePos : 1 ≤ e.2 := (hpos e heMem).1
  have hpPos : 1 ≤ ((buildVotes f gs).foldl voteStep ("", 0)).2 := by
    rcases hLeE with h | ⟨hc, _⟩
    · omega
    · omega
  have hpMem : (buildVotes f gs).foldl voteStep ("", 0) ∈ buildVotes f gs := by
    rcases foldl_voteStep_mem (buildVotes f gs) ("", 0) with h | h
    · rw [h] at hpPos
      simp at hpPos
    · exact h
  have hpKey : ((buildVotes f gs).foldl voteStep ("", 0)).1 ≠ "" :=
    (hpos _ hpMem).2
  have hpCount : assocCount (buildVotes f gs)
      (((buildVotes f gs).foldl voteStep ("", 0)).1)
      = ((buildVotes f gs).foldl voteStep ("", 0)).2 :=
    assocCount_eq_of_mem hnd hpMem
  have hpSpec : specVoteCount f gs (mostVoted (buildVotes f gs))
      = ((buildVotes f gs).foldl voteStep ("", 0)).2 := by
    rw [show mostVoted (buildVotes f gs)
        = ((buildVotes f gs).foldl voteStep ("", 0)).1 from rfl]
    rw [← buildVotes_count f hpKey gs]
    exact hpCount
  refine ⟨hpKey, ?_, ?_⟩
  · rw [hpSpec]
    exact hpPos
  · intro v hv0
    by_cases hvc : 1 ≤ specVoteCount f gs v
    · have hac : 1 ≤ assocCount (buildVotes f gs) v := by
        rw [buildVotes_count f hv0 gs]
        exact hvc
      obtain ⟨cv, hcv⟩ := exists_mem_of_assocCount_pos hac
      have hcve : assocCount (buildVotes f gs) v = cv :=
        assocCount_eq_of_mem hnd hcv
      have hcvSpec : specVoteCount f gs v = cv := by
        rw [← buildVotes_count f hv0 gs, hcve]
      have hlev := foldl_voteStep_le (buildVotes f gs) ("", 0) (v, cv)
        (Or.inr hcv)
      rcases hlev with h | ⟨hc, hs⟩
      · constructor
        · rw [hcvSpec, hpSpec]
          simp only at h
          omega
        · intro habs
          rw [hcvSpec, hpSpec] at habs
          simp only at h
          omega
      · constructor
        · rw [hcvSpec, hpSpec]
          simp only at hc
          omega
        · intro _
          exact hs
    · have hz : specVoteCount f gs v = 0 := by omega
      constructor
      · rw [hz]
        exact Nat.zero_le _
      · intro habs
        rw [hz] at habs
        rw [hpSpec] at habs
        omega

lemma mostVoted_mem_values (f : Geolocation → String) (gs : List Geolocation)
    (h : mostVoted (buildVotes f gs) ≠ "") :
    ∃ g ∈ gs, f g = mostVoted (buildVotes f gs) := by
  by_cases hnil : buildVotes f gs = []
  · rw [hnil] at h
    exact absurd rfl h
  · have hmax := mostVoted_max f gs hnil
    have hpos : 0 < (List.countP
        (fun g => decide (f g = mostVoted (buildVotes f gs))) gs) := by
      have h2 := hmax.2.1
      simpa [specVoteCount] using h2
    obtain ⟨g, hg, hp⟩ := List.countP_pos_iff.mp hpos
    refine ⟨g, hg, ?_⟩
    simpa using hp

example :
    mostVoted [("US", 2), ("DE", 2)] = "DE" := by decide

example :
    mostVoted [("United States", 2), ("Germany", 1)] = "United States" := by
  decide

example : mostVoted [] = "" := by decide

example :
    buildVotes (fun g => g.Country)
      [{ Country := "US" }, { Country := "DE" }, { Country := "US" }] =
      [("US", 2), ("DE", 1)] := by decide

lemma successCount_eq_length (r : Report) :
    r.SuccessCount = r.SuccessfulResults.length := by
  simp [Report.SuccessCount, Report.SuccessfulResults,
    List.countP_eq_length_filter]

lemma consensus_IP (r : Report) : (r.Consensus).IP = r.IP := by
  simp only [Report.Consensus, Report.consensusWith]
  by_cases h0 : r.SuccessfulResults.length = 0
  · rw [if_pos h0]
  · rw [if_neg h0]

lemma consensus_field_eq (r : Report) (φ : GeoField)
    (h : ¬ r.SuccessfulResults.length = 0) :
    φ.get r.Consensus =
      mostVoted (buildVotes φ.get
        (r.SuccessfulResults.filterMap (fun pr => pr.Result))) := by
  simp only [Report.Consensus, Report.consensusWith]
  rw [if_neg h]
  cases φ <;> rfl

lemma consensus_field_empty (r : Report) (φ : GeoField)
    (h : r.SuccessfulResults.length = 0) : φ.get r.Consensus = "" := by
  simp only [Report.Consensus, Report.consensusWith]
  rw [if_pos h]
  cases φ <;> rfl

/-- C5: on a Report with zero successful outcomes (including a Report with
zero providers), `Consensus` returns — as a total function, never an
error — the Geolocation holding only the queried address, every other
field empty/zero. -/
theorem C5_consensus_zero_success (r : Report) (h : r.SuccessCount = 0) :
    r.Consensus =
      { IP := r.IP
        Country := ""
        CountryCode := ""
        Region := ""
        City := ""
        Latitude := 0
        Longitude := 0
        ISP := ""
        Org := ""
        ASN := "" } := by
  have h0 : r.SuccessfulResults.length = 0 := by
    rw [← successCount_eq_length]
    exact h
  simp only [Report.Consensus, Report.consensusWith]
  rw [if_pos h0]

theorem C5_witness :
    (⟨⟨[8, 8, 8, 8], ""⟩, [⟨"a", none, "boom"⟩]⟩ : Report).SuccessCount = 0 ∧
    (⟨⟨[8, 8, 8, 8], ""⟩, [⟨"a", none, "boom"⟩]⟩ : Report).Consensus =
      { IP := ⟨[8, 8, 8, 8], ""⟩
        Country := ""
        CountryCode := ""
        Region := ""
        City := ""
        Latitude := 0
        Longitude := 0
        ISP := ""
        Org := ""
        ASN := "" } :=
  ⟨by decide, C5_consensus_zero_success _ (by decide)⟩

lemma consensus_field_spec (r : Report) (φ : GeoField) :
    ((∀ v, v ≠ "" → specVoteCount φ.get
        (r.SuccessfulResults.filterMap (fun pr => pr.Result)) v = 0) →
      φ.get r.Consensus = "") ∧
    ((∃ v, v ≠ "" ∧ 1 ≤ specVoteCount φ.get
        (r.SuccessfulResults.filterMap (fun pr => pr.Result)) v) →
      φ.get r.Consensus ≠ "") ∧
    (φ.get r.Consensus ≠ "" →
      1 ≤ specVoteCount φ.get
        (r.SuccessfulResults.filterMap (fun pr => pr.Result))
        (φ.get r.Consensus) ∧
      ∀ v, v ≠ "" →
        specVoteCount φ.get
          (r.SuccessfulResults.filterMap (fun pr => pr.Result)) v
          ≤ specVoteCount φ.get
            (r.SuccessfulResults.filterMap (fun pr => pr.Result))
            (φ.get r.Consensus) ∧
        (specVoteCount φ.get
            (r.SuccessfulResults.filterMap (fun pr => pr.Result)) v
            = specVoteCount φ.get
              (r.SuccessfulResults.filterMap (fun pr => pr.Result))
              (φ.get r.Consensus) →
          strLt v (φ.get r.Consensus) = false)) := by
  by_cases h0 : r.SuccessfulResults.length = 0
  · have hnil : r.SuccessfulResults = [] := List.length_eq_zero.mp h0
    have hc := consensus_field_empty r φ h0
    rw [hc, hnil]
    refine ⟨fun _ => rfl, ?_, fun hne => absurd rfl hne⟩
    rintro ⟨v, hv, hcnt⟩
    simp [specVoteCount] at hcnt
  · rw [consensus_field_eq r φ h0]
    by_cases hnil : buildVotes φ.get
        (r.SuccessfulResults.filterMap (fun pr => pr.Result)) = []
    · have hall := (buildVotes_eq_nil_iff _ _).mp hnil
      rw [hnil]
      have hmv : mostVoted ([] : List (String × Nat)) = "" := rfl
      rw [hmv]
      refine ⟨fun _ => rfl, ?_, fun hne => absurd rfl hne⟩
      rintro ⟨v, hv, hcnt⟩
      rw [hall v hv] at hcnt
      omega
    · obtain ⟨hne, hpos, hmax⟩ := mostVoted_max φ.get _ hnil
      refine ⟨?_, fun _ => hne, fun _ => ⟨hpos, hmax⟩⟩
      intro hz
      exact absurd ((buildVotes_eq_nil_iff _ _).mpr hz) hnil

/-- C2: for each of the seven voted string fields independently, the
consensus value is an actually-voted string with the maximal vote count
(each successful outcome whose geolocation has a non-empty value for the
field casts one vote for that exact value), ties are resolved to the
lexicographically smallest tied string, and a field with no votes resolves
to the empty string; in particular country votes
["United States", "United States", "Germany"] yield "United States", and
tied country votes {US: 2, DE: 2} yield "DE". -/
theorem C2_consensus_field_voting :
    (∀ (r : Report) (φ : GeoField),
      ((∀ v, v ≠ "" → specVoteCount φ.get
          (r.SuccessfulResults.filterMap (fun pr => pr.Result)) v = 0) →
        φ.get r.Consensus = "") ∧
      ((∃ v, v ≠ "" ∧ 1 ≤ specVoteCount φ.get
          (r.SuccessfulResults.filterMap (fun pr => pr.Result)) v) →
        φ.get r.Consensus ≠ "") ∧
      (φ.get r.Consensus ≠ "" →
        1 ≤ specVoteCount φ.get
          (r.SuccessfulResults.filterMap (fun pr => pr.Result))
          (φ.get r.Consensus) ∧
        ∀ v, v ≠ "" →
          specVoteCount φ.get
            (r.SuccessfulResults.filterMap (fun pr => pr.Result)) v
            ≤ specVoteCount φ.get
              (r.SuccessfulResults.filterMap (fun pr => pr.Result))
              (φ.get r.Consensus) ∧
          (specVoteCount φ.get
              (r.SuccessfulResults.filterMap (fun pr => pr.Result)) v
              = specVoteCount φ.get
                (r.SuccessfulResults.filterMap (fun pr => pr.Result))
                (φ.get r.Consensus) →
            strLt v (φ.get r.Consensus) = false))) ∧
    (Report.Consensus ⟨⟨[8, 8, 8, 8], ""⟩,
      [⟨"a", some { Country := "United States" }, ""⟩,
       ⟨"b", some { Country := "United States" }, ""⟩,
       ⟨"c", some { Country := "Germany" }, ""⟩]⟩).Country
      = "United States" ∧
    (Report.Consensus ⟨⟨[8, 8, 8, 8], ""⟩,
      [⟨"a", some { Country := "US" }, ""⟩,
       ⟨"b", some { Country := "DE" }, ""⟩,
       ⟨"c", some { Country := "US" }, ""⟩,
       ⟨"d", some { Country := "DE" }, ""⟩]⟩).Country = "DE" :=
  ⟨fun r φ => consensus_field_spec r φ, rfl, rfl⟩

theorem C2_witness :
    ("DE" ≠ "" ∧ 1 ≤ specVoteCount GeoField.country.get
      ((⟨⟨[8, 8, 8, 8], ""⟩,
        [⟨"a", some { Country := "US" }, ""⟩,
         ⟨"b", some { Country := "DE" }, ""⟩]⟩ :
          Report).SuccessfulResults.filterMap (fun pr => pr.Result)) "DE") ∧
    GeoField.country.get
      (⟨⟨[8, 8, 8, 8], ""⟩,
        [⟨"a", some { Country := "US" }, ""⟩,
         ⟨"b", some { Country := "DE" }, ""⟩]⟩ : Report).Consensus ≠ "" :=
  ⟨⟨by decide, by decide⟩,
    (C2_consensus_field_voting.1 _ GeoField.country).2.1
      ⟨"DE", by decide, by decide⟩⟩

lemma consensus_coords (r : Report) (h : ¬ r.SuccessfulResults.length = 0) :
    r.Consensus.Latitude =
      (if 0 < ((r.SuccessfulResults.filterMap (fun pr => pr.Result)).filter
          (fun g => g.HasLocation)).length then
        (((r.SuccessfulResults.filterMap (fun pr => pr.Result)).filter
            (fun g => g.HasLocation)).map (fun g => g.Latitude)).sum /
          ((((r.SuccessfulResults.filterMap (fun pr => pr.Result)).filter
              (fun g => g.HasLocation)).length : Nat) : Rat)
      else 0) ∧
    r.Consensus.Longitude =
      (if 0 < ((r.SuccessfulResults.filterMap (fun pr => pr.Result)).filter
          (fun g => g.HasLocation)).length then
        (((r.SuccessfulResults.filterMap (fun pr => pr.Result)).filter
            (fun g => g.HasLocation)).map (fun g => g.Longitude)).sum /
          ((((r.SuccessfulResults.filterMap (fun pr => pr.Result)).filter
              (fun g => g.HasLocation)).length : Nat) : Rat)
      else 0) := by
  simp only [Report.Consensus, Report.consensusWith]
  rw [if_neg h]
  exact ⟨rfl, rfl⟩

lemma consensus_coords_spec (r : Report) :
    ((r.SuccessfulResults.filterMap (fun pr => pr.Result)).filter
        (fun g => g.HasLocation) = [] →
      r.Consensus.Latitude = 0 ∧ r.Consensus.Longitude = 0) ∧
    ((r.SuccessfulResults.filterMap (fun pr => pr.Result)).filter
        (fun g => g.HasLocation) ≠ [] →
      r.Consensus.Latitude =
        (((r.SuccessfulResults.filterMap (fun pr => pr.Result)).filter
            (fun g => g.HasLocation)).map (fun g => g.Latitude)).sum /
          ((((r.SuccessfulResults.filterMap (fun pr => pr.Result)).filter
              (fun g => g.HasLocation)).length : Nat) : Rat) ∧
      r.Consensus.Longitude =
        (((r.SuccessfulResults.filterMap (fun pr => pr.Result)).filter
            (fun g => g.HasLocation)).map (fun g => g.Longitude)).sum /
          ((((r.SuccessfulResults.filterMap (fun pr => pr.Result)).filter
              (fun g => g.HasLocation)).length : Nat) : Rat)) := by
  constructor
  · intro hcs
    by_cases h0 : r.SuccessfulResults.length = 0
    · simp only [Report.Consensus, Report.consensusWith]
      rw [if_pos h0]
      exact ⟨rfl, rfl⟩
    · obtain ⟨h1, h2⟩ := consensus_coords r h0
      rw [h1, h2, hcs]
      simp
  · intro hcs
    have h0 : ¬ r.SuccessfulResults.length = 0 := by
      intro h0
      exact hcs (by rw [List.length_eq_zero.mp h0]; rfl)
    obtain ⟨h1, h2⟩ := consensus_coords r h0
    have hlen : 0 < ((r.SuccessfulResults.filterMap
        (fun pr => pr.Result)).filter (fun g => g.HasLocation)).length :=
      List.length_pos.mpr hcs
    rw [h1, h2, if_pos hlen, if_pos hlen]
    exact ⟨rfl, rfl⟩

/-- C3: consensus latitude and longitude are the arithmetic means of the
raw coordinate pairs of exactly those successful outcomes whose
geolocation satisfies `HasLocation` (at least one of the two coordinates
non-zero; both coordinates of such an outcome enter the average even when
one of them is exactly zero), and both are zero when no successful outcome
has coordinates; in particular the pairs (36, -120) and (38, -124) average
to exactly (37, -122).  The Go `float64` arithmetic is idealised as exact
rational arithmetic; at the example values the floating computation is
exact as well. -/
theorem C3_consensus_coordinate_average :
    (∀ r : Report,
      ((r.SuccessfulResults.filterMap (fun pr => pr.Result)).filter
          (fun g => g.HasLocation) = [] →
        r.Consensus.Latitude = 0 ∧ r.Consensus.Longitude = 0) ∧
      ((r.SuccessfulResults.filterMap (fun pr => pr.Result)).filter
          (fun g => g.HasLocation) ≠ [] →
        r.Consensus.Latitude =
          (((r.SuccessfulResults.filterMap (fun pr => pr.Result)).filter
              (fun g => g.HasLocation)).map (fun g => g.Latitude)).sum /
            ((((r.SuccessfulResults.filterMap (fun pr => pr.Result)).filter
                (fun g => g.HasLocation)).length : Nat) : Rat) ∧
        r.Consensus.Longitude =
          (((r.SuccessfulResults.filterMap (fun pr => pr.Result)).filter
              (fun g => g.HasLocation)).map (fun g => g.Longitude)).sum /
            ((((r.SuccessfulResults.filterMap (fun pr => pr.Result)).filter
                (fun g => g.HasLocation)).length : Nat) : Rat))) ∧
    (Report.Consensus ⟨⟨[8, 8, 8, 8], ""⟩,
      [⟨"a", some { Latitude := 36, Longitude := -120 }, ""⟩,
       ⟨"b", some { Latitude := 38, Longitude := -124 }, ""⟩]⟩).Latitude
      = 37 ∧
    (Report.Consensus ⟨⟨[8, 8, 8, 8], ""⟩,
      [⟨"a", some { Latitude := 36, Longitude := -120 }, ""⟩,
       ⟨"b", some { Latitude := 38, Longitude := -124 }, ""⟩]⟩).Longitude
      = -122 := by
  refine ⟨consensus_coords_spec, ?_, ?_⟩
  · obtain ⟨_, h2⟩ := consensus_coords_spec
      ⟨⟨[8, 8, 8, 8], ""⟩,
        [⟨"a", some { Latitude := 36, Longitude := -120 }, ""⟩,
         ⟨"b", some { Latitude := 38, Longitude := -124 }, ""⟩]⟩
    have hcs := h2 (by decide)
    rw [hcs.1]
    norm_num [Report.SuccessfulResults, ProviderResult.Success,
      Geolocation.HasLocation, List.filter, List.filterMap]
  · obtain ⟨_, h2⟩ := consensus_coords_spec
      ⟨⟨[8, 8, 8, 8], ""⟩,
        [⟨"a", some { Latitude := 36, Longitude := -120 }, ""⟩,
         ⟨"b", some { Latitude := 38, Longitude := -124 }, ""⟩]⟩
    have hcs := h2 (by decide)
    rw [hcs.2]
    norm_num [Report.SuccessfulResults, ProviderResult.Success,
      Geolocation.HasLocation, List.filter, List.filterMap]

theorem C3_witness :
    (((⟨⟨[8, 8, 8, 8], ""⟩, [⟨"a", some { Country := "X" }, ""⟩]⟩ :
        Report).SuccessfulResults.filterMap (fun pr => pr.Result)).filter
      (fun g => g.HasLocation) = []) ∧
    ((⟨⟨[8, 8, 8, 8], ""⟩, [⟨"a", some { Country := "X" }, ""⟩]⟩ :
        Report).Consensus.Latitude = 0 ∧
      (⟨⟨[8, 8, 8, 8], ""⟩, [⟨"a", some { Country := "X" }, ""⟩]⟩ :
        Report).Consensus.Longitude = 0) :=
  ⟨by decide, (C3_consensus_coordinate_average.1 _).1 (by decide)⟩

/-- C6: `Consensus` is deterministic and idempotent: its value does not
depend on the iteration order in which the entries of the internal vote
maps are folded (any permutation of any vote map yields the identical
Geolocation), and two calls on the same Report yield equal results. -/
theorem C6_consensus_deterministic (r : Report)
    (π : GeoField → List (String × Nat) → List (String × Nat))
    (hπ : ∀ (φ : GeoField) (l : List (String × Nat)), (π φ l).Perm l) :
    r.consensusWith π = r.Consensus ∧ r.Consensus = r.Consensus := by
  refine ⟨?_, rfl⟩
  have hc : ∀ (φ : GeoField) (votes : List (String × Nat)),
      mostVoted (π φ votes) = mostVoted votes :=
    fun φ votes => mostVoted_perm (hπ φ votes)
  simp only [Report.Consensus, Report.consensusWith]
  by_cases h0 : r.SuccessfulResults.length = 0
  · rw [if_pos h0, if_pos h0]
  · rw [if_neg h0, if_neg h0]
    simp only [hc, id_eq]

theorem C6_witness :
    (∀ (φ : GeoField) (l : List (String × Nat)),
      ((fun _ : GeoField => List.reverse (α := String × Nat)) φ l).Perm l) ∧
    (⟨⟨[8, 8, 8, 8], ""⟩, [⟨"a", some { Country := "US" }, ""⟩,
        ⟨"b", some { Country := "DE" }, ""⟩]⟩ : Report).consensusWith
      (fun _ => List.reverse) =
    (⟨⟨[8, 8, 8, 8], ""⟩, [⟨"a", some { Country := "US" }, ""⟩,
        ⟨"b", some { Country := "DE" }, ""⟩]⟩ : Report).Consensus :=
  ⟨fun _ l => List.reverse_perm l,
    (C6_consensus_deterministic _ (fun _ => List.reverse)
      (fun _ l => List.reverse_perm l)).1⟩

/-- C10: the consensus Geolocation always carries the Report's queried
address, and every non-empty voted string field of the consensus equals a
value that some successful outcome actually supplied for that field. -/
theorem C10_consensus_no_fabrication (r : Report) (φ : GeoField) :
    r.Consensus.IP = r.IP ∧
    (φ.get r.Consensus ≠ "" →
      ∃ pr ∈ r.Results, pr.Success = true ∧
        ∃ g, pr.Result = some g ∧ φ.get g = φ.get r.Consensus) := by
  refine ⟨consensus_IP r, ?_⟩
  intro hne
  by_cases h0 : r.SuccessfulResults.length = 0
  · exact absurd (consensus_field_empty r φ h0) hne
  · rw [consensus_field_eq r φ h0] at hne ⊢
    obtain ⟨g, hg, hfg⟩ := mostVoted_mem_values φ.get _ hne
    rw [List.mem_filterMap] at hg
    obtain ⟨pr, hpr, hres⟩ := hg
    rw [Report.SuccessfulResults, List.mem_filter] at hpr
    exact ⟨pr, hpr.1, hpr.2, g, hres, hfg⟩

theorem C10_witness :
    GeoField.country.get (⟨⟨[8, 8, 8, 8], ""⟩,
      [⟨"a", some { Country := "US" }, ""⟩]⟩ : Report).Consensus ≠ "" ∧
    ∃ pr ∈ (⟨⟨[8, 8, 8, 8], ""⟩,
        [⟨"a", some { Country := "US" }, ""⟩]⟩ : Report).Results,
      pr.Success = true ∧ ∃ g, pr.Result = some g ∧
        GeoField.country.get g = GeoField.country.get (⟨⟨[8, 8, 8, 8], ""⟩,
          [⟨"a", some { Country := "US" }, ""⟩]⟩ : Report).Consensus :=
  ⟨by decide, (C10_consensus_no_fabrication _ GeoField.country).2 (by decide)⟩

lemma lookup_results_getElem (ps : List Provider) (ip : NetipAddr) (j : Nat) :
    (Lookup ps ip).Results[j]? = (ps[j]?).map (checkOutcome ip) := by
  simp [Lookup, List.getElem?_map]

lemma lookupSched_foldl_getElem (ps : List Provider) (ip : NetipAddr) :
    ∀ (order : List Nat) (init : List ProviderResult),
      init.length = ps.length →
      ∀ j, (order.foldl (fun acc i =>
          match ps[i]? with
          | some p => acc.set i (checkOutcome ip p)
          | none => acc) init)[j]? =
        if j ∈ order ∧ j < ps.length then (ps[j]?).map (checkOutcome ip)
        else init[j]? := by
  intro order
  induction order with
  | nil =>
      intro init _ j
      simp
  | cons o rest ih =>
      intro init hlen j
      simp only [List.foldl_cons]
      have hlen2 : (match ps[o]? with
          | some p => init.set o (checkOutcome ip p)
          | none => init).length = ps.length := by
        cases ps[o]? <;> simp [List.length_set, hlen]
      rw [ih _ hlen2 j]
      by_cases hjr : j ∈ rest
      · by_cases hjN : j < ps.length
        · rw [if_pos ⟨hjr, hjN⟩,
            if_pos ⟨List.mem_cons_of_mem _ hjr, hjN⟩]
        · rw [if_neg (fun h => hjN h.2), if_neg (fun h => hjN h.2)]
          cases hpo : ps[o]? with
          | none => rfl
          | some p =>
              have hoN : o < ps.length := by
                by_contra hno
                rw [List.getElem?_eq_none (by omega)] at hpo
                exact absurd hpo (by simp)
              exact List.getElem?_set_ne (by omega)
      · rw [if_neg (fun h => hjr h.1)]
        by_cases hjo : j = o
        · subst hjo
          by_cases hjN : j < ps.length
          · rw [if_pos ⟨List.mem_cons_self _ _, hjN⟩]
            cases hpo : ps[j]? with
            | none =>
                have hcon := List.getElem?_eq_none_iff.mp hpo
                omega
            | some p =>
                simp only [Option.map_some']
                exact List.getElem?_set_self (by omega)
          · rw [if_neg (fun h => hjN h.2)]
            have hpo : ps[j]? = none := List.getElem?_eq_none (by omega)
            simp only [hpo]
        · rw [if_neg (fun h =>
            (List.mem_cons.mp h.1).elim (fun he => hjo he) (fun hm => hjr hm))]
          cases hpo : ps[o]? with
          | none => rfl
          | some p => exact List.getElem?_set_ne (fun he => hjo he.symm)

lemma lookupSched_foldl_length (ps : List Provider) (ip : NetipAddr) :
    ∀ (order : List Nat) (init : List ProviderResult),
      (order.foldl (fun acc i =>
        match ps[i]? with
        | some p => acc.set i (checkOutcome ip p)
        | none => acc) init).length = init.length := by
  intro order
  induction order with
  | nil => intro init; rfl
  | cons o rest ih =>
      intro init
      simp only [List.foldl_cons]
      rw [ih]
      cases ps[o]? <;> simp [List.length_set]

lemma lookupSched_eq_lookup (ps : List Provider) (ip : NetipAddr)
    (order : List Nat) (hperm : order.Perm (List.range ps.length)) :
    LookupSched ps ip order = Lookup ps ip := by
  have hmem : ∀ j, j ∈ order ↔ j < ps.length := by
    intro j
    rw [hperm.mem_iff, List.mem_range]
  simp only [LookupSched, Lookup, Report.mk.injEq]
  refine ⟨trivial, ?_⟩
  apply List.ext_getElem?
  intro j
  rw [lookupSched_foldl_getElem ps ip order _ (by simp) j,
    List.getElem?_map]
  by_cases hj : j < ps.length
  · rw [if_pos ⟨(hmem j).mpr hj, hj⟩]
  · rw [if_neg (fun h => hj h.2)]
    have h1 : ps[j]? = none := List.getElem?_eq_none (by omega)
    have h2 : (List.replicate ps.length ({} : ProviderResult))[j]? = none :=
      List.getElem?_eq_none (by simp; omega)
    rw [h1, h2]
    rfl

/-- C1: for every address and every ordered provider list (length N ≥ 0,
duplicates legal), `Lookup` returns a Report whose Results list has
exactly N entries, the entry at index i being exactly the outcome of the
provider registered at index i (its name and its fetch result); the final
array is independent of the order in which the per-provider slot writes
complete (any permutation of the write schedule yields the same Report),
and zero providers yield an empty outcome list. -/
theorem C1_lookup_ordered_outcomes (ps : List Provider) (ip : NetipAddr) :
    (Lookup ps ip).Results.length = ps.length ∧
    (∀ j : Nat, (Lookup ps ip).Results[j]? = (ps[j]?).map (checkOutcome ip)) ∧
    (∀ order, order.Perm (List.range ps.length) →
      LookupSched ps ip order = Lookup ps ip) ∧
    (ps = [] → (Lookup ps ip).Results = []) := by
  refine ⟨by simp [Lookup], fun j => lookup_results_getElem ps ip j,
    fun order h => lookupSched_eq_lookup ps ip order h, ?_⟩
  intro h
  subst h
  rfl

theorem C1_witness :
    ([1, 0].Perm (List.range 2)) ∧
    LookupSched [⟨"a", fun _ => Except.ok { Country := "US" }⟩,
        ⟨"b", fun _ => Except.error "x"⟩] ⟨[8, 8, 8, 8], ""⟩ [1, 0] =
      Lookup [⟨"a", fun _ => Except.ok { Country := "US" }⟩,
        ⟨"b", fun _ => Except.error "x"⟩] ⟨[8, 8, 8, 8], ""⟩ :=
  ⟨by decide,
    (C1_lookup_ordered_outcomes _ _).2.2.1 [1, 0] (by decide)⟩

/-- C4: a failing provider never disturbs another provider's recorded
outcome — slot i of the Report depends only on provider i (replacing every
other provider, by arbitrarily failing ones included, leaves slot i
unchanged) — and `Lookup` is total: it returns a Report with one slot per
provider for every input, and a provider failure appears only as data (the
error message recorded in that provider's own outcome). -/
theorem C4_failure_isolation (ps ps2 : List Provider) (ip : NetipAddr)
    (i : Nat) (hsame : ps[i]? = ps2[i]?) :
    (Lookup ps ip).Results[i]? = (Lookup ps2 ip).Results[i]? ∧
    (Lookup ps ip).Results.length = ps.length ∧
    (∀ p e, ps[i]? = some p → p.check ip = Except.error e →
      (Lookup ps ip).Results[i]? =
        some { Provider := p.name, Result := none, Error := e }) := by
  refine ⟨?_, by simp [Lookup], ?_⟩
  · rw [lookup_results_getElem, lookup_results_getElem, hsame]
  · intro p e hp he
    rw [lookup_results_getElem, hp]
    simp [checkOutcome, he]

theorem C4_witness :
    ((([⟨"good", fun _ => Except.ok { Country := "US" }⟩,
        ⟨"b", fun _ => Except.error "x"⟩] : List Provider)[1]?) =
      (([⟨"bad", fun _ => Except.error "boom"⟩,
        ⟨"b", fun _ => Except.error "x"⟩] : List Provider)[1]?)) ∧
    (Lookup [⟨"good", fun _ => Except.ok { Country := "US" }⟩,
        ⟨"b", fun _ => Except.error "x"⟩] ⟨[8, 8, 8, 8], ""⟩).Results[1]? =
      (Lookup [⟨"bad", fun _ => Except.error "boom"⟩,
        ⟨"b", fun _ => Except.error "x"⟩] ⟨[8, 8, 8, 8], ""⟩).Results[1]? :=
  ⟨rfl, (C4_failure_isolation _ _ _ 1 rfl).1⟩

/-- C8: in every Report produced by `Lookup` over N providers, a provider
whose fetch errored contributes a Failure outcome with no geolocation
payload (`Result = none`, `Success = false`), a provider whose fetch
succeeded contributes a Success outcome carrying exactly the returned
Geolocation, and `SuccessCount + ErrorCount = N`. -/
theorem C8_outcome_payloads (ps : List Provider) (ip : NetipAddr) :
    (∀ (i : Nat) (p : Provider), ps[i]? = some p →
      (∀ e, p.check ip = Except.error e →
        (Lookup ps ip).Results[i]? =
          some { Provider := p.name, Result := none, Error := e } ∧
        (ProviderResult.mk p.name none e).Success = false) ∧
      (∀ g, p.check ip = Except.ok g →
        (Lookup ps ip).Results[i]? =
          some { Provider := p.name, Result := some g, Error := "" } ∧
        (ProviderResult.mk p.name (some g) "").Success = true)) ∧
    (Lookup ps ip).SuccessCount + (Lookup ps ip).ErrorCount = ps.length := by
  constructor
  · intro i p hp
    constructor
    · intro e he
      constructor
      · rw [lookup_results_getElem, hp]
        simp [checkOutcome, he]
      · simp [ProviderResult.Success]
    · intro g hg
      constructor
      · rw [lookup_results_getElem, hp]
        simp [checkOutcome, hg]
      · simp [ProviderResult.Success]
  · have hle : (Lookup ps ip).SuccessCount ≤ (Lookup ps ip).Results.length :=
      List.countP_le_length _
    have hlen : (Lookup ps ip).Results.length = ps.length := by simp [Lookup]
    simp only [Report.ErrorCount]
    omega

theorem C8_witness :
    (([⟨"a", fun _ => Except.error "boom"⟩] : List Provider)[0]? =
      some ⟨"a", fun _ => Except.error "boom"⟩) ∧
    ((⟨"a", fun _ => Except.error "boom"⟩ : Provider).check
      ⟨[8, 8, 8, 8], ""⟩ = Except.error "boom") ∧
    (Lookup [⟨"a", fun _ => Except.error "boom"⟩]
        ⟨[8, 8, 8, 8], ""⟩).Results[0]? =
      some { Provider := "a", Result := none, Error := "boom" } :=
  ⟨rfl, rfl, (((C8_outcome_payloads _ _).1 0 _ rfl).1 "boom" rfl).1⟩

/-- C9 counterexample: the aggregator records a provider error verbatim
via `err.Error()`, so a provider whose error has an empty message yields
an outcome with no geolocation payload and an empty failure description —
neither side of the claimed "exactly one present" invariant holds for it. -/
theorem C9_counterexample :
    (Lookup [⟨"p", fun _ => Except.error ""⟩] ⟨[8, 8, 8, 8], ""⟩).Results =
      [{ Provider := "p", Result := none, Error := "" }] ∧
    ¬ ((({ Provider := "p", Result := none, Error := "" } :
          ProviderResult).Result.isSome = true ∧
        ({ Provider := "p", Result := none, Error := "" } :
          ProviderResult).Error = "") ∨
       (({ Provider := "p", Result := none, Error := "" } :
          ProviderResult).Result = none ∧
        ({ Provider := "p", Result := none, Error := "" } :
          ProviderResult).Error ≠ "")) :=
  ⟨rfl, by decide⟩

/-- C9 (amended): every outcome created by `Lookup` never carries both a
payload and a non-empty failure description; a successful fetch yields the
returned Geolocation (an empty Geolocation included) with `Success = true`
and no failure text, a failed fetch yields no payload, the error's message
verbatim and `Success = false`; and whenever the provider's error messages
are non-empty — as for every concrete provider of this repository —
exactly one of the payload and the non-empty failure description is
present. -/
theorem C9_exactly_one_amended (ps : List Provider) (ip : NetipAddr)
    (i : Nat) (p : Provider) (hp : ps[i]? = some p) :
    ∀ pr, (Lookup ps ip).Results[i]? = some pr →
      (¬ (pr.Result.isSome = true ∧ pr.Error ≠ "")) ∧
      (∀ g, p.check ip = Except.ok g →
        pr.Result = some g ∧ pr.Error = "" ∧ pr.Success = true) ∧
      (∀ e, p.check ip = Except.error e →
        pr.Result = none ∧ pr.Error = e ∧ pr.Success = false) ∧
      ((∀ e, p.check ip = Except.error e → e ≠ "") →
        ((pr.Result.isSome = true ∧ pr.Error = "") ∨
         (pr.Result = none ∧ pr.Error ≠ ""))) := by
  intro pr hpr
  rw [lookup_results_getElem, hp, Option.map_some'] at hpr
  have hpr2 : pr = checkOutcome ip p := (Option.some.inj hpr).symm
  subst hpr2
  unfold checkOutcome
  cases hc : p.check ip with
  | error e =>
      refine ⟨by simp, ?_, ?_, ?_⟩
      · intro g hg
        exact absurd hg (by simp)
      · intro e2 he2
        have he3 : e = e2 := Except.error.inj he2
        subst he3
        exact ⟨rfl, rfl, by simp [ProviderResult.Success]⟩
      · intro hne
        exact Or.inr ⟨rfl, hne e rfl⟩
  | ok g =>
      refine ⟨by simp, ?_, ?_, ?_⟩
      · intro g2 hg2
        have hg3 : g = g2 := Except.ok.inj hg2
        subst hg3
        exact ⟨rfl, rfl, by simp [ProviderResult.Success]⟩
      · intro e2 he2
        exact absurd he2 (by simp)
      · intro _
        exact Or.inl ⟨by simp, rfl⟩

theorem C9_witness :
    (([⟨"a", fun _ => Except.error "boom"⟩] : List Provider)[0]? =
      some ⟨"a", fun _ => Except.error "boom"⟩) ∧
    ((Lookup [⟨"a", fun _ => Except.error "boom"⟩]
        ⟨[8, 8, 8, 8], ""⟩).Results[0]? =
      some { Provider := "a", Result := none, Error := "boom" }) ∧
    ((({ Provider := "a", Result := none, Error := "boom" } :
          ProviderResult).Result.isSome = true ∧
        ({ Provider := "a", Result := none, Error := "boom" } :
          ProviderResult).Error = "") ∨
     (({ Provider := "a", Result := none, Error := "boom" } :
          ProviderResult).Result = none ∧
      ({ Provider := "a", Result := none, Error := "boom" } :
          ProviderResult).Error ≠ "")) :=
  ⟨rfl, rfl,
    (C9_exactly_one_amended [⟨"a", fun _ => Except.error "boom"⟩]
        ⟨[8, 8, 8, 8], ""⟩ 0 ⟨"a", fun _ => Except.error "boom"⟩ rfl
        { Provider := "a", Result := none, Error := "boom" } rfl).2.2.2
      (fun e he => by
        have h2 : "boom" = e :=
          Except.error.inj
            (show Except.error "boom" = Except.error e from he)
        rw [← h2]
        decide)⟩

lemma parseIPAddress_no_zone {s : String} {a : IPAddressStruct}
    (h : ParseIPAddress s = Except.ok a) : a.addr.Zone = "" := by
  unfold ParseIPAddress at h
  by_cases hs : s = ""
  · rw [if_pos hs] at h
    exact absurd h (by simp)
  · rw [if_neg hs] at h
    cases hm : netipParseAddr s with
    | error e =>
        rw [hm] at h
        exact absurd h (by simp)
    | ok b =>
        rw [hm] at h
        have h2 : (if b.Zone ≠ "" then
            (Except.error "IP address contains zone identifier" :
              Except String IPAddressStruct)
          else Except.ok { addr := b }) = Except.ok a := h
        by_cases hz : b.Zone ≠ ""
        · rw [if_pos hz] at h2
          exact absurd h2 (by simp)
        · rw [if_neg hz] at h2
          have hab : a = { addr := b } := (Except.ok.inj h2).symm
          subst hab
          simpa using hz

lemma parseIPAddress_accepts {s : String} {a : NetipAddr} (hs : s ≠ "")
    (h : netipParseAddr s = Except.ok a) (hz : a.Zone = "") :
    ParseIPAddress s = Except.ok { addr := a } := by
  unfold ParseIPAddress
  rw [if_neg hs, h]
  show (if a.Zone ≠ "" then
      (Except.error "IP address contains zone identifier" :
        Except String IPAddressStruct)
    else Except.ok { addr := a }) = Except.ok { addr := a }
  rw [if_neg (not_not_intro hz)]

lemma parseIPAddress_rejects_invalid {s : String} {e : String}
    (h : netipParseAddr s = Except.error e) (hs : s ≠ "") :
    ParseIPAddress s = Except.error "invalid IP address" := by
  unfold ParseIPAddress
  rw [if_neg hs, h]

/-- C7: the repository's two address constructors disagree on
zone-qualified literals.  `ParseIPAddress` behaves as the claim states: it
rejects the empty string, malformed literals and every zone-qualified
literal, and accepts valid zone-free literals (so a constructed wrapped
address never holds a zone).  But `ParseAddr` — the thin `netip.ParseAddr`
alias in src/internal/model/ip.go that cmd/ipintel/main.go actually calls
to construct the queried address — accepts `"fe80::1%eth0"` and returns an
address carrying the zone `"eth0"`, contradicting the claim, the spec's
construction invariant, and the expectations of ip_test.go. -/
theorem C7_zone_rejection_divergence :
    ParseIPAddress "fe80::1%eth0" =
      Except.error "IP address contains zone identifier" ∧
    ParseAddr "fe80::1%eth0" = Except.ok { bytes := [254, 128, 0, 0, 0, 0, 0, 0, 0, 0, 0, 0, 0, 0, 0, 1], zone := "eth0" } ∧
    ParseIPAddress "192.168.1.1" =
      Except.ok { addr := { bytes := [192, 168, 1, 1], zone := "" } } ∧
    ParseIPAddress "2001:db8::1" = Except.ok { addr := { bytes := [32, 1, 13, 184, 0, 0, 0, 0, 0, 0, 0, 0, 0, 0, 0, 1], zone := "" } } ∧
    ParseIPAddress "not-an-ip" = Except.error "invalid IP address" ∧
    ParseIPAddress "" = Except.error "empty IP address" ∧
    ParseIPAddress "192.168.1.1:8080" = Except.error "invalid IP address" ∧
    ParseIPAddress "256.1.1.1" = Except.error "invalid IP address" :=
  ⟨rfl, rfl, rfl, rfl, rfl, rfl, rfl, rfl⟩
